import Mathlib

/-!
Verification of the label-indexed sparse-volume subsystem of the dvid
repository (`labels64` package): the two streaming aggregation consumers
`ComputeSurface` and `ComputeSizes`, the sparse-volume encoder
`GetSparseVol`, the size-range query `GetSizeRange`, and the surface
lookup `GetSurface`.  The Go code is embedded shallowly: each stateful
receive loop becomes an explicit state-passing interpreter over the list
of chunks received before the nil sentinel, and the external key-value
store, batch commits and surface serialization are parametrized by
oracles/environments, faithful to the collaborator contracts.
-/

namespace DVID

set_option maxRecDepth 8000

/-- A single run-length record as laid out on the wire: three signed 32-bit
start coordinates and a signed 32-bit length. -/
structure Run where
  x : Int
  y : Int
  z : Int
  len : Int
deriving Repr, DecidableEq

/-- Little-endian signed 32-bit integer from four bytes. -/
def leI32 (b0 b1 b2 b3 : Nat) : Int :=
  let u := b0 + 256 * b1 + 65536 * b2 + 16777216 * b3
  if u < 2147483648 then (u : Int) else (u : Int) - 4294967296

/-- Modelled from the spec: `dvid.RLEs.UnmarshalBinary` (the `dvid` package's
RLE codec is not under src/) parses consecutive 16-byte run records (three
i32 start coordinates and an i32 length, little-endian, three axes) and
fails with a format error when trailing bytes remain. -/
def decodeRLEs : List Nat → Option (List Run)
  | [] => some []
  | b0 :: b1 :: b2 :: b3 :: b4 :: b5 :: b6 :: b7 ::
    b8 :: b9 :: b10 :: b11 :: b12 :: b13 :: b14 :: b15 :: rest =>
    match decodeRLEs rest with
    | some rs =>
      some (⟨leI32 b0 b1 b2 b3, leI32 b4 b5 b6 b7,
             leI32 b8 b9 b10 b11, leI32 b12 b13 b14 b15⟩ :: rs)
    | none => none
  | _ => none

/-- Modelled from the spec: the voxel total of `RLEs.Stats()` is the sum of
the run lengths; the Go caller converts it with `uint64(...)`, which wraps
modulo 2^64. -/
def rlesStatsVoxels (rs : List Run) : Nat :=
  (((rs.map Run.len).sum) % ((2 : Int) ^ 64)).toNat

/-- A chunk received from the label-ordered stream: the `uint64` label stored
in `chunk.ChunkOp.Op` and the raw RLE value bytes `chunk.V`. -/
structure Chunk where
  label : Nat
  v : List Nat
deriving Repr, DecidableEq

/-! ### ComputeSizes -/

/-- How a `ComputeSizes` run ended: normal sentinel exit with the final batch
committed, sentinel exit whose final commit errored (logged, still returns),
early return on an RLE decode error, or early return on a failed
threshold-triggered batch commit. -/
inductive SizesOutcome where
  | finished
  | finishedCommitFailed
  | decodeError
  | commitError
deriving Repr, DecidableEq

/-- The mutable state of the `ComputeSizes` receive loop, together with
bookkeeping for the store collaborator: `batch` holds the puts buffered in
the open write batch, `committed` the entries of successfully committed
batches in commit order, `lost` the entries of batches whose commit
errored, and `intermediateCommits` counts threshold-triggered commit
attempts. -/
structure SizesState where
  curLabel : Nat := 0
  curSize : Nat := 0
  putsInBatch : Nat := 0
  notFirst : Bool := false
  batch : List (Nat × Nat) := []
  committed : List (Nat × Nat) := []
  lost : List (Nat × Nat) := []
  commitAttempts : Nat := 0
  intermediateCommits : Nat := 0
deriving Repr, DecidableEq

/-- The fixed batching threshold of `ComputeSizes`. -/
def BATCH_SIZE : Nat := 10000

/-- One iteration of the `ComputeSizes` receive loop for a non-nil chunk.
`Sum.inl` is an early `return` from the Go function (with its outcome);
`Sum.inr` continues the loop.  The commit oracle reports whether the k-th
`batch.Commit()` call of this run succeeds. -/
def sizesProcessChunk (oracle : Nat → Bool) (c : Chunk) (s : SizesState) :
    (SizesState × SizesOutcome) ⊕ SizesState :=
  match decodeRLEs c.v with
  | none => Sum.inl (s, SizesOutcome.decodeError)
  | some rs =>
    let numVoxels := rlesStatsVoxels rs
    if s.notFirst && (c.label != s.curLabel) then
      let s1 : SizesState :=
        { s with batch := s.batch ++ [(s.curSize, s.curLabel)], curSize := 0,
                 putsInBatch := s.putsInBatch + 1 }
      if s1.putsInBatch % BATCH_SIZE == 0 then
        if oracle s1.commitAttempts then
          let s2 : SizesState :=
            { s1 with committed := s1.committed ++ s1.batch, batch := [],
                      commitAttempts := s1.commitAttempts + 1,
                      intermediateCommits := s1.intermediateCommits + 1 }
          Sum.inr { s2 with curLabel := c.label,
                            curSize := (s2.curSize + numVoxels) % 2 ^ 64,
                            notFirst := true }
        else
          Sum.inl ({ s1 with lost := s1.lost ++ s1.batch, batch := [],
                             commitAttempts := s1.commitAttempts + 1,
                             intermediateCommits := s1.intermediateCommits + 1 },
                   SizesOutcome.commitError)
      else
        Sum.inr { s1 with curLabel := c.label,
                          curSize := (s1.curSize + numVoxels) % 2 ^ 64,
                          notFirst := true }
    else
      Sum.inr { s with curLabel := c.label,
                       curSize := (s.curSize + numVoxels) % 2 ^ 64,
                       notFirst := true }

/-- The nil-chunk (sentinel) handler of `ComputeSizes`: it unconditionally
puts the `(curSize, curLabel)` entry and commits the batch; a final commit
error is logged and the function returns. -/
def sizesFinish (oracle : Nat → Bool) (s : SizesState) : SizesState × SizesOutcome :=
  let s1 : SizesState := { s with batch := s.batch ++ [(s.curSize, s.curLabel)] }
  if oracle s1.commitAttempts then
    ({ s1 with committed := s1.committed ++ s1.batch, batch := [],
               commitAttempts := s1.commitAttempts + 1 }, SizesOutcome.finished)
  else
    ({ s1 with lost := s1.lost ++ s1.batch, batch := [],
               commitAttempts := s1.commitAttempts + 1 },
     SizesOutcome.finishedCommitFailed)

/-- The `ComputeSizes` receive loop over the chunks arriving before the nil
sentinel. -/
def sizesLoop (oracle : Nat → Bool) :
    List Chunk → SizesState → (SizesState × SizesOutcome) ⊕ SizesState
  | [], s => Sum.inr s
  | c :: rest, s =>
    match sizesProcessChunk oracle c s with
    | Sum.inl r => Sum.inl r
    | Sum.inr s1 => sizesLoop oracle rest s1

/-- The function `ComputeSizes`: drain the stream (the given list followed by the nil
sentinel) starting from the zero-initialized state. -/
def computeSizes (oracle : Nat → Bool) (chunks : List Chunk) :
    SizesState × SizesOutcome :=
  match sizesLoop oracle chunks {} with
  | Sum.inl r => r
  | Sum.inr s => sizesFinish oracle s

/-! ### ComputeSurface -/

/-- How a `ComputeSurface` run ended: normal sentinel exit, early return on a
`computeAndSaveSurface` error, or early return on an `AddRLEs` decode
error. -/
inductive SurfOutcome where
  | finished
  | finalizeError
  | addRLEsError
deriving Repr, DecidableEq

/-- The mutable state of the `ComputeSurface` receive loop: `volLabel` and
`volRuns` are the accumulating `dvid.SparseVol` (`AddRLEs`, modelled from
the spec, decodes a chunk's bytes and merges the runs in), `finalized`
records the successful `computeAndSaveSurface` calls in order, and
`finalizeAttempts` counts all such calls. -/
structure SurfaceState where
  curLabel : Nat := 0
  volLabel : Nat := 0
  volRuns : List Run := []
  notFirst : Bool := false
  finalized : List (Nat × List Run) := []
  finalizeAttempts : Nat := 0
deriving Repr, DecidableEq

/-- One iteration of the `ComputeSurface` receive loop for a non-nil chunk.
The oracle reports whether the k-th `computeAndSaveSurface` call (an
external surface serialization plus store put) succeeds. -/
def surfProcessChunk (oracle : Nat → Bool) (c : Chunk) (s : SurfaceState) :
    (SurfaceState × SurfOutcome) ⊕ SurfaceState :=
  let boundary : (SurfaceState × SurfOutcome) ⊕ SurfaceState :=
    if c.label != s.curLabel || c.label == 0 then
      if s.notFirst then
        if oracle s.finalizeAttempts then
          Sum.inr { s with finalized := s.finalized ++ [(s.volLabel, s.volRuns)],
                           finalizeAttempts := s.finalizeAttempts + 1,
                           volLabel := c.label, volRuns := [] }
        else
          Sum.inl ({ s with finalizeAttempts := s.finalizeAttempts + 1 },
                   SurfOutcome.finalizeError)
      else Sum.inr { s with volLabel := c.label, volRuns := [] }
    else Sum.inr s
  match boundary with
  | Sum.inl r => Sum.inl r
  | Sum.inr s1 =>
    match decodeRLEs c.v with
    | none => Sum.inl (s1, SurfOutcome.addRLEsError)
    | some rs =>
      Sum.inr { s1 with volRuns := s1.volRuns ++ rs, curLabel := c.label,
                        notFirst := true }

/-- The nil-chunk (sentinel) handler of `ComputeSurface`: finalize once more
when at least one chunk arrived, otherwise return without finalizing. -/
def surfFinish (oracle : Nat → Bool) (s : SurfaceState) : SurfaceState × SurfOutcome :=
  if s.notFirst then
    if oracle s.finalizeAttempts then
      ({ s with finalized := s.finalized ++ [(s.volLabel, s.volRuns)],
                finalizeAttempts := s.finalizeAttempts + 1 }, SurfOutcome.finished)
    else
      ({ s with finalizeAttempts := s.finalizeAttempts + 1 },
       SurfOutcome.finalizeError)
  else (s, SurfOutcome.finished)

/-- The `ComputeSurface` receive loop over the chunks arriving before the nil
sentinel. -/
def surfLoop (oracle : Nat → Bool) :
    List Chunk → SurfaceState → (SurfaceState × SurfOutcome) ⊕ SurfaceState
  | [], s => Sum.inr s
  | c :: rest, s =>
    match surfProcessChunk oracle c s with
    | Sum.inl r => Sum.inl r
    | Sum.inr s1 => surfLoop oracle rest s1

/-- The observable result of one `ComputeSurface` run, including the two
deferred effects `wg.Done()` and `server.HandlerToken <- 1`. -/
structure SurfaceResult where
  state : SurfaceState
  outcome : SurfOutcome
  wgDone : Nat
  handlerTokensReleased : Nat
deriving Repr, DecidableEq

/-- The function `ComputeSurface`: drain the stream starting from the zero-initialized
state; the deferred `wg.Done()` and `server.HandlerToken <- 1` run exactly
once on every return path (Go `defer` semantics). -/
def computeSurface (oracle : Nat → Bool) (chunks : List Chunk) : SurfaceResult :=
  let r : SurfaceState × SurfOutcome :=
    match surfLoop oracle chunks {} with
    | Sum.inl r => r
    | Sum.inr s => surfFinish oracle s
  { state := r.1, outcome := r.2, wgDone := 1, handlerTokensReleased := 1 }

/-! ### GetSparseVol -/

/-- Little-endian encoding of a 32-bit value into four bytes. -/
def u32le (n : Nat) : List Nat :=
  [n % 256, n / 256 % 256, n / 65536 % 256, n / 16777216 % 256]

/-- Modelled from the spec: `dvid.EncodingBinary` (not under src/) is the
payload descriptor byte with no auxiliary payload bit flags set. -/
def EncodingBinary : Nat := 0

/-- The 12 header bytes written by `GetSparseVol` before any spans are
appended: descriptor, number of dimensions (3), run dimension (0), one
reserved byte, a u32 voxel-count placeholder and a u32 span-count
placeholder. -/
def sparseVolHeader : List Nat :=
  EncodingBinary :: 3 :: 0 :: 0 :: (u32le 0 ++ u32le 0)

/-- The function `GetSparseVol`, applied to the values of the matched spatial-index
entries in ascending scan order: append each entry's raw bytes to the
header, count `len(chunk.V) / 16` runs per entry (a `uint32` sum), and
patch the span-count field at bytes 8..11 after the scan. -/
def getSparseVol (values : List (List Nat)) : List Nat :=
  let encoding := sparseVolHeader ++ values.flatten
  let numRuns := (values.map (fun v => v.length / 16)).sum % 2 ^ 32
  encoding.take 8 ++ u32le numRuns ++ encoding.drop 12

/-! ### GetSizeRange -/

/-- A size-index key by its `(voxel count, label)` sort components; the
big-endian byte layout `tag | count(8) | label(8)` makes store order the
lexicographic order on these pairs. -/
def NewLabelSizesIndex (size label : Nat) : Nat × Nat := (size, label)

/-- Lexicographic comparison of size-index keys, matching byte order of the
big-endian key encoding. -/
def keyLE (a b : Nat × Nat) : Bool :=
  decide (a.1 < b.1 ∨ (a.1 = b.1 ∧ a.2 ≤ b.2))

/-- Collaborator contract of the ordered key-value store: `KeysInRange`
returns, in store (ascending key) order, the stored keys lying in the
inclusive range from `first` to `last`. -/
def KeysInRange (store : List (Nat × Nat)) (first last : Nat × Nat) :
    List (Nat × Nat) :=
  store.filter (fun k => keyLE first k && keyLE k last)

/-- The maximum representable `uint64` value. -/
def MaxUint64 : Nat := 2 ^ 64 - 1

/-- The function `GetSizeRange` (the label-list computation; JSON marshalling of the
resulting list is the external codec): build first/last keys from
`(minSize, 0)` and `(maxSize or MaxUint64, MaxUint64)`, perform one range
read, and decode each key back to its label. -/
def getSizeRange (store : List (Nat × Nat)) (minSize maxSize : Nat) : List Nat :=
  let firstKey := NewLabelSizesIndex minSize 0
  let upperBound := if maxSize != 0 then maxSize else MaxUint64
  let lastKey := NewLabelSizesIndex upperBound MaxUint64
  (KeysInRange store firstKey lastKey).map Prod.snd

/-! ### GetSurface -/

/-- The error cases of `GetSurface`: the big-data store role is not
configured, the store read failed, or the stored bytes failed to
deserialize. -/
inductive GetSurfaceErr where
  | noBigDataStore
  | storeGetError
  | deserializeError
deriving Repr, DecidableEq

/-- The external collaborators of `GetSurface`: store availability, the
per-label result of `store.Get` (`none` is a read failure, `some none` a
missing key, `some (some bytes)` a stored value), and the
checksum/compression codec's `DeserializeData`. -/
structure SurfaceStoreEnv where
  bigDataAvailable : Bool
  getResult : Nat → Option (Option (List Nat))
  deserialize : List Nat → Option (List Nat)

/-- The function `GetSurface`: a missing surface blob yields `([], false)` with no error;
store and deserialization failures yield errors. -/
def getSurface (env : SurfaceStoreEnv) (label : Nat) :
    Except GetSurfaceErr (List Nat × Bool) :=
  if env.bigDataAvailable then
    match env.getResult label with
    | none => Except.error GetSurfaceErr.storeGetError
    | some none => Except.ok ([], false)
    | some (some data) =>
      match env.deserialize data with
      | none => Except.error GetSurfaceErr.deserializeError
      | some sb => Except.ok (sb, true)
  else Except.error GetSurfaceErr.noBigDataStore

/-! ### Concrete inputs and closed-form run descriptions used by the
theorems -/

/-- Sixteen bytes encoding one run starting at the origin with length 1. -/
def runBytes1 : List Nat := [0, 0, 0, 0, 0, 0, 0, 0, 0, 0, 0, 0, 1, 0, 0, 0]

/-- The run encoded by `runBytes1`. -/
def oneRun : Run := ⟨0, 0, 0, 1⟩

/-- A well-formed chunk for the given label carrying a single length-1 run. -/
def mkChunk (l : Nat) : Chunk := ⟨l, runBytes1⟩

/-- The stream `mkStream a n` is the stream of `n` single-run chunks with the distinct
consecutive labels `a+1, …, a+n`. -/
def mkStream : Nat → Nat → List Chunk
  | _, 0 => []
  | a, n + 1 => mkChunk (a + 1) :: mkStream (a + 1) n

/-- The batched size entries produced by a label boundary sweep: the pending
entry `(σ, a)` followed by the unit-size entries for labels
`a+1, …, a+n-1`. -/
def segBatch (σ a : Nat) : Nat → List (Nat × Nat)
  | 0 => []
  | n + 1 => (σ, a) :: segBatch 1 (a + 1) n

/-- The state reached from `s` (accumulating label `a`) after consuming the
`n` chunks of `mkStream a n`, provided no batch commit is triggered. -/
def segEnd (s : SizesState) (a n : Nat) : SizesState :=
  { s with curLabel := a + n,
           curSize := if n = 0 then s.curSize else 1,
           putsInBatch := s.putsInBatch + n,
           batch := s.batch ++ segBatch s.curSize a n,
           notFirst := true }

/-- The state of `ComputeSizes` after consuming `mkStream 0 (n+1)` from the
initial state, for `n ≤ 9999` (no commit triggered yet). -/
def midState (n : Nat) : SizesState :=
  { curLabel := n + 1, curSize := 1, putsInBatch := n, notFirst := true,
    batch := segBatch 1 1 n }

/-- The state in which `ComputeSizes` aborts when the first
threshold-triggered commit fails, after a stream of 10001 distinct-label
single-run chunks. -/
def c3AbortState : SizesState :=
  { curLabel := 10000, curSize := 0, putsInBatch := 10000, notFirst := true,
    batch := [], committed := [], lost := segBatch 1 1 10000,
    commitAttempts := 1, intermediateCommits := 1 }

/-- A store environment in which every label is missing and nothing
deserializes. -/
def envMissing : SurfaceStoreEnv :=
  { bigDataAvailable := true, getResult := fun _ => some none,
    deserialize := fun _ => none }

/-! ### Evaluation and step lemmas for the ComputeSizes interpreter -/

lemma decodeRLEs_runBytes1 : decodeRLEs runBytes1 = some [oneRun] := by decide

lemma statsVoxels_oneRun : rlesStatsVoxels [oneRun] = 1 := by decide

lemma zero_add_one_mod : (0 + 1) % 2 ^ 64 = 1 := by norm_num

lemma sizesStep_first (oracle : Nat → Bool) (l : Nat) (s : SizesState)
    (h : s.notFirst = false) :
    sizesProcessChunk oracle (mkChunk l) s =
      Sum.inr { s with curLabel := l, curSize := (s.curSize + 1) % 2 ^ 64,
                       notFirst := true } := by
  simp [sizesProcessChunk, mkChunk, decodeRLEs_runBytes1, statsVoxels_oneRun, h]

lemma sizesStep_boundary_noCommit (oracle : Nat → Bool) (l : Nat) (s : SizesState)
    (hnf : s.notFirst = true) (hne : l ≠ s.curLabel)
    (hmod : (s.putsInBatch + 1) % BATCH_SIZE ≠ 0) :
    sizesProcessChunk oracle (mkChunk l) s =
      Sum.inr { s with batch := s.batch ++ [(s.curSize, s.curLabel)],
                       putsInBatch := s.putsInBatch + 1,
                       curLabel := l, curSize := 1, notFirst := true } := by
  simp [sizesProcessChunk, mkChunk, decodeRLEs_runBytes1, statsVoxels_oneRun,
        hnf, hne, hmod, zero_add_one_mod]

lemma sizesStep_boundary_commitOK (oracle : Nat → Bool) (l : Nat) (s : SizesState)
    (hnf : s.notFirst = true) (hne : l ≠ s.curLabel)
    (hmod : (s.putsInBatch + 1) % BATCH_SIZE = 0)
    (hok : oracle s.commitAttempts = true) :
    sizesProcessChunk oracle (mkChunk l) s =
      Sum.inr { s with batch := [],
                       committed := s.committed ++ (s.batch ++ [(s.curSize, s.curLabel)]),
                       putsInBatch := s.putsInBatch + 1,
                       commitAttempts := s.commitAttempts + 1,
                       intermediateCommits := s.intermediateCommits + 1,
                       curLabel := l, curSize := 1, notFirst := true } := by
  simp [sizesProcessChunk, mkChunk, decodeRLEs_runBytes1, statsVoxels_oneRun,
        hnf, hne, hmod, hok, zero_add_one_mod]

lemma sizesStep_boundary_commitFail (oracle : Nat → Bool) (l : Nat) (s : SizesState)
    (hnf : s.notFirst = true) (hne : l ≠ s.curLabel)
    (hmod : (s.putsInBatch + 1) % BATCH_SIZE = 0)
    (hfail : oracle s.commitAttempts = false) :
    sizesProcessChunk oracle (mkChunk l) s =
      Sum.inl ({ s with batch := [],
                        lost := s.lost ++ (s.batch ++ [(s.curSize, s.curLabel)]),
                        putsInBatch := s.putsInBatch + 1,
                        commitAttempts := s.commitAttempts + 1,
                        intermediateCommits := s.intermediateCommits + 1,
                        curSize := 0 }, SizesOutcome.commitError) := by
  simp [sizesProcessChunk, mkChunk, decodeRLEs_runBytes1, statsVoxels_oneRun,
        hnf, hne, hmod, hfail]

lemma sizesLoop_append (oracle : Nat → Bool) (xs ys : List Chunk) (s : SizesState) :
    sizesLoop oracle (xs ++ ys) s =
      match sizesLoop oracle xs s with
      | Sum.inl r => Sum.inl r
      | Sum.inr s1 => sizesLoop oracle ys s1 := by
  induction xs generalizing s with
  | nil => simp [sizesLoop]
  | cons c rest ih =>
    simp only [List.cons_append, sizesLoop]
    cases sizesProcessChunk oracle c s with
    | inl r => simp
    | inr s1 => simpa using ih s1

lemma mkStream_append (a m n : Nat) :
    mkStream a (m + n) = mkStream a m ++ mkStream (a + m) n := by
  induction m generalizing a with
  | zero => simp [mkStream]
  | succ k ih =>
    rw [show k + 1 + n = (k + n) + 1 from by omega]
    rw [show mkStream a ((k + n) + 1) = mkChunk (a + 1) :: mkStream (a + 1) (k + n)
          from rfl]
    rw [ih (a + 1)]
    rw [show (a + 1) + k = a + (k + 1) from by omega]
    rfl

lemma segBatch_snoc (a n : Nat) :
    segBatch 1 a n ++ [(1, a + n)] = segBatch 1 a (n + 1) := by
  induction n generalizing a with
  | zero => simp [segBatch]
  | succ k ih =>
    rw [show segBatch 1 a (k + 1) = (1, a) :: segBatch 1 (a + 1) k from rfl]
    simp only [List.cons_append]
    rw [show a + (k + 1) = (a + 1) + k from by omega, ih (a + 1)]
    rfl

lemma segBatch_length (σ a n : Nat) : (segBatch σ a n).length = n := by
  induction n generalizing σ a with
  | zero => simp [segBatch]
  | succ k ih => simp [segBatch, ih]

lemma segEnd_step (s : SizesState) (a k : Nat) (h2 : s.curLabel = a) :
    segEnd { s with batch := s.batch ++ [(s.curSize, s.curLabel)],
                    putsInBatch := s.putsInBatch + 1,
                    curLabel := a + 1, curSize := 1, notFirst := true } (a + 1) k
      = segEnd s a (k + 1) := by
  rcases s with ⟨cl, cs, p, nf, b, cm, lo, ca, ic⟩
  simp only at h2
  subst h2
  simp [segEnd, segBatch, List.append_assoc]
  omega

lemma sizesLoop_mkStream (oracle : Nat → Bool) :
    ∀ (n a : Nat) (s : SizesState), s.notFirst = true → s.curLabel = a →
      (∀ i, i < n → (s.putsInBatch + i + 1) % BATCH_SIZE ≠ 0) →
      sizesLoop oracle (mkStream a n) s = Sum.inr (segEnd s a n) := by
  intro n
  induction n with
  | zero =>
    intro a s h1 h2 _
    rcases s with ⟨cl, cs, p, nf, b, cm, lo, ca, ic⟩
    simp only at h1 h2
    subst h1; subst h2
    simp [mkStream, sizesLoop, segEnd, segBatch]
  | succ k ih =>
    intro a s h1 h2 h3
    rw [show mkStream a (k + 1) = mkChunk (a + 1) :: mkStream (a + 1) k from rfl]
    simp only [sizesLoop]
    rw [sizesStep_boundary_noCommit oracle (a + 1) s h1 (by rw [h2]; omega)
          (by simpa using h3 0 (Nat.succ_pos k))]
    have hshift : ∀ i, i < k → (s.putsInBatch + 1 + i + 1) % BATCH_SIZE ≠ 0 := by
      intro i hi
      have h4 := h3 (i + 1) (by omega)
      have h5 : s.putsInBatch + (i + 1) + 1 = s.putsInBatch + 1 + i + 1 := by omega
      rwa [h5] at h4
    change sizesLoop oracle (mkStream (a + 1) k) _ = _
    rw [ih (a + 1) _ rfl rfl hshift, segEnd_step s a k h2]

lemma sizesLoop_initialSegment (oracle : Nat → Bool) (n : Nat) (hn : n ≤ 9999) :
    sizesLoop oracle (mkStream 0 (n + 1)) {} = Sum.inr (midState n) := by
  rw [show mkStream 0 (n + 1) = mkChunk 1 :: mkStream 1 n from rfl]
  simp only [sizesLoop]
  rw [sizesStep_first oracle 1 {} rfl]
  change sizesLoop oracle (mkStream 1 n) _ = _
  rw [sizesLoop_mkStream oracle n 1 _ rfl rfl (by
        intro i hi
        show (0 + i + 1) % BATCH_SIZE ≠ 0
        simp only [BATCH_SIZE]
        omega)]
  congr 1
  simp [segEnd, midState, segBatch, zero_add_one_mod]
  omega

lemma sizesLoop_first10000 (oracle : Nat → Bool) :
    sizesLoop oracle (mkStream 0 10000) {} = Sum.inr (midState 9999) := by
  have h := sizesLoop_initialSegment oracle 9999 (by norm_num)
  norm_num at h
  exact h

lemma c3_loop_abort :
    sizesLoop (fun _ => false) (mkStream 0 10001) {} =
      Sum.inl (c3AbortState, SizesOutcome.commitError) := by
  have hsplit : mkStream 0 10001 = mkStream 0 10000 ++ mkStream 10000 1 := by
    have h := mkStream_append 0 10000 1
    norm_num at h
    exact h
  rw [hsplit, sizesLoop_append, sizesLoop_first10000]
  show sizesLoop (fun _ => false) (mkStream 10000 1) (midState 9999) = _
  rw [show mkStream 10000 1 = [mkChunk 10001] from rfl]
  simp only [sizesLoop]
  rw [sizesStep_boundary_commitFail (fun _ => false) 10001 (midState 9999)
        rfl (by norm_num [midState]) (by norm_num [midState, BATCH_SIZE]) rfl]
  have hlost : segBatch 1 1 9999 ++ [(1, 10000)] = segBatch 1 1 10000 := by
    have h := segBatch_snoc 1 9999
    norm_num at h
    exact h
  simp only [midState, c3AbortState, List.nil_append]
  rw [hlost]

lemma computeSizes_early (oracle : Nat → Bool) (pre suf : List Chunk)
    (r : SizesState × SizesOutcome) (h : sizesLoop oracle pre {} = Sum.inl r) :
    computeSizes oracle (pre ++ suf) = r := by
  unfold computeSizes
  rw [sizesLoop_append, h]

lemma sizesStep_commitError_batch (oracle : Nat → Bool) (c : Chunk) (s r : SizesState)
    (h : sizesProcessChunk oracle c s = Sum.inl (r, SizesOutcome.commitError)) :
    r.batch = [] := by
  unfold sizesProcessChunk at h
  split at h
  · injection h with h1
    injection h1 with h2 h3
    exact absurd h3 (by simp)
  · simp only at h
    split at h
    · split at h
      · split at h
        · exact Sum.noConfusion h
        · injection h with h1
          injection h1 with h2 h3
          rw [← h2]
      · exact Sum.noConfusion h
    · exact Sum.noConfusion h

lemma sizesLoop_commitError_batch (oracle : Nat → Bool) :
    ∀ (chunks : List Chunk) (s r : SizesState),
      sizesLoop oracle chunks s = Sum.inl (r, SizesOutcome.commitError) →
      r.batch = [] := by
  intro chunks
  induction chunks with
  | nil => intro s r h; exact absurd h (by simp [sizesLoop])
  | cons c rest ih =>
    intro s r h
    simp only [sizesLoop] at h
    cases hstep : sizesProcessChunk oracle c s with
    | inl p =>
      rw [hstep] at h
      simp only at h
      injection h with h1
      rw [h1] at hstep
      exact sizesStep_commitError_batch oracle c s r hstep
    | inr s1 =>
      rw [hstep] at h
      simp only at h
      exact ih s1 r h

lemma segBatch_snoc_9999 : segBatch 1 1 9999 ++ [(1, 10000)] = segBatch 1 1 10000 := by
  have h := segBatch_snoc 1 9999
  norm_num at h
  exact h

lemma c4_loop_10001 :
    sizesLoop (fun _ => true) (mkStream 0 10001) {} =
      Sum.inr { curLabel := 10001, curSize := 1, putsInBatch := 10000,
                notFirst := true, batch := [], committed := segBatch 1 1 10000,
                lost := [], commitAttempts := 1, intermediateCommits := 1 } := by
  have hsplit : mkStream 0 10001 = mkStream 0 10000 ++ mkStream 10000 1 := by
    have h := mkStream_append 0 10000 1
    norm_num at h
    exact h
  rw [hsplit, sizesLoop_append, sizesLoop_first10000]
  show sizesLoop (fun _ => true) (mkStream 10000 1) (midState 9999) = _
  rw [show mkStream 10000 1 = [mkChunk 10001] from rfl]
  simp only [sizesLoop]
  rw [sizesStep_boundary_commitOK (fun _ => true) 10001 (midState 9999)
        rfl (by norm_num [midState]) (by norm_num [midState, BATCH_SIZE]) rfl]
  simp only [midState, List.nil_append]
  rw [segBatch_snoc_9999]

lemma c4_run_10001 :
    computeSizes (fun _ => true) (mkStream 0 10001) =
      ({ curLabel := 10001, curSize := 1, putsInBatch := 10000, notFirst := true,
         batch := [], committed := segBatch 1 1 10000 ++ [(1, 10001)], lost := [],
         commitAttempts := 2, intermediateCommits := 1 }, SizesOutcome.finished) := by
  unfold computeSizes
  rw [c4_loop_10001]
  simp [sizesFinish]

lemma c4_run_10000 :
    computeSizes (fun _ => true) (mkStream 0 10000) =
      ({ curLabel := 10000, curSize := 1, putsInBatch := 9999, notFirst := true,
         batch := [], committed := segBatch 1 1 10000, lost := [],
         commitAttempts := 1, intermediateCommits := 0 }, SizesOutcome.finished) := by
  unfold computeSizes
  rw [sizesLoop_first10000]
  show sizesFinish (fun _ => true) (midState 9999) = _
  simp [sizesFinish, midState, segBatch_snoc_9999]

lemma c4_run_9999 :
    computeSizes (fun _ => true) (mkStream 0 9999) =
      ({ curLabel := 9999, curSize := 1, putsInBatch := 9998, notFirst := true,
         batch := [], committed := segBatch 1 1 9999, lost := [],
         commitAttempts := 1, intermediateCommits := 0 }, SizesOutcome.finished) := by
  unfold computeSizes
  have h := sizesLoop_initialSegment (fun _ => true) 9998 (by norm_num)
  norm_num at h
  rw [h]
  show sizesFinish (fun _ => true) (midState 9998) = _
  have hcom : segBatch 1 1 9998 ++ [(1, 9999)] = segBatch 1 1 9999 := by
    have h2 := segBatch_snoc 1 9998
    norm_num at h2
    exact h2
  simp [sizesFinish, midState, hcom]

/-! ### Helper lemmas for GetSparseVol and GetSizeRange -/

lemma sum_div16 (values : List (List Nat)) (h : ∀ v ∈ values, 16 ∣ v.length) :
    (values.map (fun v => v.length / 16)).sum = values.flatten.length / 16 := by
  induction values with
  | nil => simp
  | cons v rest ih =>
    obtain ⟨k, hk⟩ := h v (by simp)
    have hrest := ih (fun w hw => h w (by simp [hw]))
    have hflat : (v :: rest).flatten = v ++ rest.flatten := rfl
    simp only [List.map_cons, List.sum_cons, hflat, List.length_append]
    rw [hrest, hk, Nat.mul_add_div (by norm_num),
        Nat.mul_div_cancel_left k (by norm_num : (0 : Nat) < 16)]

lemma header_take (l : List Nat) :
    (sparseVolHeader ++ l).take 8 = [EncodingBinary, 3, 0, 0, 0, 0, 0, 0] := rfl

lemma header_drop (l : List Nat) : (sparseVolHeader ++ l).drop 12 = l := rfl

/-! ### Claim C1 -/

/-- C1 counterexample: on a stream containing only the nil sentinel,
`ComputeSizes` does write a size-index entry — the sentinel handler
unconditionally puts `(0, 0)` (size 0, label 0) and commits it —
contradicting the claim that the consumer performs zero finalize actions
and writes no size-index entry. -/
theorem C1_counterexample :
    (computeSizes (fun _ => true) []).1.committed = [(0, 0)] ∧
    (computeSizes (fun _ => true) []).1.committed ≠ [] := by
  decide

/-- C1 (amended): on a terminator-only stream `ComputeSurface` performs zero
finalize actions, but `ComputeSizes` unconditionally puts exactly one
size-index entry `(0, 0)` at the sentinel and attempts to commit it,
whatever the commit outcome. -/
theorem C1_empty_stream (oracle : Nat → Bool) :
    (computeSurface oracle []).state.finalized = [] ∧
    (computeSurface oracle []).state.finalizeAttempts = 0 ∧
    (computeSizes oracle []).1.committed ++ (computeSizes oracle []).1.lost
      = [(0, 0)] := by
  refine ⟨rfl, rfl, ?_⟩
  unfold computeSizes sizesLoop sizesFinish
  cases h : oracle 0 <;> simp [h]

/-! ### Claim C2 -/

/-- C2 counterexample: two consecutive label-0 chunks followed by the
sentinel yield a single size entry in `ComputeSizes` (its boundary test is
only a label change, with no label-0 rule, so the two chunks merge into one
accumulation of size 2) — not the two separate finalize actions the claim
asserts for both consumers. -/
theorem C2_counterexample :
    (computeSizes (fun _ => true) [mkChunk 0, mkChunk 0]).1.committed = [(2, 0)] ∧
    (computeSizes (fun _ => true) [mkChunk 0, mkChunk 0]).1.committed.length ≠ 2 := by
  decide

/-- C2 (amended): label 0 is always a boundary in `ComputeSurface` — two
consecutive label-0 chunks trigger two separate finalize calls there — but
`ComputeSizes` finalizes only on a label change, so the same stream yields
one combined size entry for label 0. -/
theorem C2_zero_label_boundary (v1 v2 : List Nat) (r1 r2 : List Run)
    (h1 : decodeRLEs v1 = some r1) (h2 : decodeRLEs v2 = some r2) :
    (computeSurface (fun _ => true) [⟨0, v1⟩, ⟨0, v2⟩]).state.finalized =
      [(0, r1), (0, r2)] ∧
    (computeSizes (fun _ => true) [⟨0, v1⟩, ⟨0, v2⟩]).1.committed =
      [((rlesStatsVoxels r1 + rlesStatsVoxels r2) % 2 ^ 64, 0)] := by
  constructor
  · simp [computeSurface, surfLoop, surfProcessChunk, surfFinish, h1, h2]
  · simp [computeSizes, sizesLoop, sizesProcessChunk, sizesFinish, h1, h2,
          Nat.mod_add_mod]

/-- C2 witness: two concrete label-0 single-run chunks give two surface
finalizations but one combined size entry of size 2. -/
theorem C2_witness :
    (computeSurface (fun _ => true)
        [⟨0, runBytes1⟩, ⟨0, runBytes1⟩]).state.finalized =
      [(0, [oneRun]), (0, [oneRun])] ∧
    (computeSizes (fun _ => true) [⟨0, runBytes1⟩, ⟨0, runBytes1⟩]).1.committed =
      [(2, 0)] := by
  have h := C2_zero_label_boundary runBytes1 runBytes1 [oneRun] [oneRun]
      decodeRLEs_runBytes1 decodeRLEs_runBytes1
  have hmod : (rlesStatsVoxels [oneRun] + rlesStatsVoxels [oneRun]) % 2 ^ 64 = 2 := by
    decide
  rw [hmod] at h
  exact h

/-! ### Claim C3 -/

/-- C3 counterexample: a stream of 10002 distinct-label chunks with a failing
commit oracle reaches the threshold-triggered commit at 10000 buffered
puts, the commit errors, and `ComputeSizes` returns immediately: nothing at
all is committed (in particular no entries for the labels finalized after
the failure), and the run never reaches the stream-end sentinel
(its outcome is `commitError`, not a sentinel outcome). -/
theorem C3_counterexample :
    (computeSizes (fun _ => false) (mkStream 0 10002)).2 =
      SizesOutcome.commitError ∧
    (computeSizes (fun _ => false) (mkStream 0 10002)).1.committed = [] ∧
    (computeSizes (fun _ => false) (mkStream 0 10002)).1.intermediateCommits = 1 := by
  have hsplit : mkStream 0 10002 = mkStream 0 10001 ++ mkStream 10001 1 := by
    have h := mkStream_append 0 10001 1
    norm_num at h
    exact h
  have h := computeSizes_early (fun _ => false) (mkStream 0 10001)
      (mkStream 10001 1) (c3AbortState, SizesOutcome.commitError) c3_loop_abort
  rw [hsplit, h]
  exact ⟨rfl, rfl, rfl⟩

/-- C3 (amended): when a threshold-triggered batch commit fails, the failure
is logged and `ComputeSizes` returns immediately: the remaining stream and
the sentinel are never processed — the whole run's result is the abort
state with outcome `commitError` — and the failed batch has been dropped
(the open batch is empty at return), so no entries for subsequent labels
are emitted. -/
theorem C3_commit_error_halts (oracle : Nat → Bool) (pre suf : List Chunk)
    (r : SizesState)
    (h : sizesLoop oracle pre {} = Sum.inl (r, SizesOutcome.commitError)) :
    computeSizes oracle (pre ++ suf) = (r, SizesOutcome.commitError) ∧
    r.batch = [] :=
  ⟨computeSizes_early oracle pre suf (r, SizesOutcome.commitError) h,
   sizesLoop_commitError_batch oracle pre {} r h⟩

/-- C3 witness: the amended claim instantiated at the concrete 10002-chunk
stream with an always-failing commit oracle. -/
theorem C3_witness :
    computeSizes (fun _ => false) (mkStream 0 10001 ++ mkStream 10001 1) =
      (c3AbortState, SizesOutcome.commitError) ∧ c3AbortState.batch = [] :=
  C3_commit_error_halts (fun _ => false) (mkStream 0 10001) (mkStream 10001 1)
    c3AbortState c3_loop_abort

/-! ### Claim C4 -/

/-- C4 counterexample: a stream in which exactly 10000 size entries are
inserted (10000 distinct labels — 9999 boundary puts plus the sentinel put)
triggers zero intermediate commits, not one: the sentinel put does not
count toward the 10000-put threshold. -/
theorem C4_counterexample :
    (computeSizes (fun _ => true) (mkStream 0 10000)).1.committed.length = 10000 ∧
    (computeSizes (fun _ => true) (mkStream 0 10000)).1.intermediateCommits = 0 ∧
    (computeSizes (fun _ => true) (mkStream 0 10000)).2 = SizesOutcome.finished := by
  rw [c4_run_10000]
  refine ⟨?_, rfl, rfl⟩
  simp [segBatch_length]

/-- C4 (amended): the batch commits exactly when the count of
boundary-triggered puts (which excludes the final sentinel put) reaches a
multiple of 10000: a stream inserting 10001 entries (10000 boundary puts
plus the sentinel put) performs exactly one intermediate commit before the
final flush, while streams inserting 10000 or 9999 entries perform zero. -/
theorem C4_threshold :
    ((computeSizes (fun _ => true) (mkStream 0 10001)).1.committed.length = 10001 ∧
     (computeSizes (fun _ => true) (mkStream 0 10001)).1.intermediateCommits = 1 ∧
     (computeSizes (fun _ => true) (mkStream 0 10001)).2 = SizesOutcome.finished) ∧
    ((computeSizes (fun _ => true) (mkStream 0 9999)).1.committed.length = 9999 ∧
     (computeSizes (fun _ => true) (mkStream 0 9999)).1.intermediateCommits = 0) := by
  constructor
  · rw [c4_run_10001]
    refine ⟨?_, rfl, rfl⟩
    simp [segBatch_length]
  · rw [c4_run_9999]
    exact ⟨by simp [segBatch_length], rfl⟩

/-! ### Claim C5 -/

/-- C5: a stream of four chunks with two contiguous distinct nonzero labels
L1, L1, L2, L2 followed by the sentinel produces exactly two finalize
actions, in stream order: `ComputeSurface` finalizes the accumulation of
c1 and c2 for L1 and then that of c3 and c4 for L2, and `ComputeSizes`
emits the entry for L1's combined size and then the one for L2's. -/
theorem C5_contiguity (L1 L2 : Nat) (v1 v2 v3 v4 : List Nat)
    (r1 r2 r3 r4 : List Run) (hL1 : L1 ≠ 0) (hL2 : L2 ≠ 0) (hne : L1 ≠ L2)
    (h1 : decodeRLEs v1 = some r1) (h2 : decodeRLEs v2 = some r2)
    (h3 : decodeRLEs v3 = some r3) (h4 : decodeRLEs v4 = some r4) :
    (computeSurface (fun _ => true)
        [⟨L1, v1⟩, ⟨L1, v2⟩, ⟨L2, v3⟩, ⟨L2, v4⟩]).state.finalized =
      [(L1, r1 ++ r2), (L2, r3 ++ r4)] ∧
    (computeSizes (fun _ => true)
        [⟨L1, v1⟩, ⟨L1, v2⟩, ⟨L2, v3⟩, ⟨L2, v4⟩]).1.committed =
      [((rlesStatsVoxels r1 + rlesStatsVoxels r2) % 2 ^ 64, L1),
       ((rlesStatsVoxels r3 + rlesStatsVoxels r4) % 2 ^ 64, L2)] := by
  have hne21 : (L2 != L1) = true := by
    simp only [bne_iff_ne, ne_eq]
    exact Ne.symm hne
  have hz1 : (L1 == 0) = false := by simp [hL1]
  have hz2 : (L2 == 0) = false := by simp [hL2]
  have hb1 : (L1 != 0) = true := by simp [bne_iff_ne, hL1]
  constructor
  · simp [computeSurface, surfLoop, surfProcessChunk, surfFinish,
          h1, h2, h3, h4, hne21, hz1, hz2, hb1]
  · simp [computeSizes, sizesLoop, sizesProcessChunk, sizesFinish,
          h1, h2, h3, h4, hne21, Nat.mod_add_mod, BATCH_SIZE]

/-- C5 witness: the contiguity theorem instantiated with labels 1 and 2 and
four concrete single-run chunks: surfaces for both labels each carry two
runs, and the size entries are (2, 1) then (2, 2). -/
theorem C5_witness :
    (computeSurface (fun _ => true)
        [⟨1, runBytes1⟩, ⟨1, runBytes1⟩, ⟨2, runBytes1⟩, ⟨2, runBytes1⟩]).state.finalized =
      [(1, [oneRun] ++ [oneRun]), (2, [oneRun] ++ [oneRun])] ∧
    (computeSizes (fun _ => true)
        [⟨1, runBytes1⟩, ⟨1, runBytes1⟩, ⟨2, runBytes1⟩, ⟨2, runBytes1⟩]).1.committed =
      [(2, 1), (2, 2)] := by
  have h := C5_contiguity 1 2 runBytes1 runBytes1 runBytes1 runBytes1
      [oneRun] [oneRun] [oneRun] [oneRun] (by decide) (by decide) (by decide)
      decodeRLEs_runBytes1 decodeRLEs_runBytes1 decodeRLEs_runBytes1
      decodeRLEs_runBytes1
  have hmod : (rlesStatsVoxels [oneRun] + rlesStatsVoxels [oneRun]) % 2 ^ 64 = 2 := by
    decide
  rw [hmod] at h
  exact h

/-! ### Claim C6 -/

/-- C6 counterexample: the header written by `GetSparseVol` is 12 bytes, not
16: with a single spatial-index entry holding one 16-byte run the blob has
28 bytes, so it cannot be a 16-byte header followed by the entry's raw
bytes. -/
theorem C6_counterexample :
    ¬ ((getSparseVol [runBytes1]).length = 16 + runBytes1.length) := by
  decide

/-- C6 (amended): the blob returned by `GetSparseVol` begins with a 12-byte
header — payload descriptor byte with no auxiliary flags set, axis-count
byte 3, fast-axis byte 0, one reserved zero byte, a little-endian u32
voxel-count field left at its placeholder 0, and a little-endian u32
run-count field patched after the scan — followed by the concatenation of
the matched entries' raw run bytes, the patched run count equal to the
concatenation's length divided by 16 (entries 16-byte aligned, total run
count below 2^32). -/
theorem C6_blob_layout (values : List (List Nat))
    (hdiv : ∀ v ∈ values, 16 ∣ v.length)
    (hlt : (values.map (fun v => v.length / 16)).sum < 2 ^ 32) :
    getSparseVol values =
      [EncodingBinary, 3, 0, 0] ++ u32le 0 ++ u32le (values.flatten.length / 16)
        ++ values.flatten ∧
    EncodingBinary = 0 := by
  constructor
  · simp only [getSparseVol]
    rw [header_take, header_drop, Nat.mod_eq_of_lt hlt, sum_div16 values hdiv]
    rfl
  · rfl

/-- C6 witness: one entry of one 16-byte run yields the 12-byte header with
patched run count 1 followed by the entry's bytes. -/
theorem C6_witness :
    getSparseVol [runBytes1] =
      [EncodingBinary, 3, 0, 0] ++ u32le 0 ++ u32le 1 ++ runBytes1 := by
  have h := (C6_blob_layout [runBytes1] (by decide) (by decide)).1
  simpa using h

/-! ### Claim C7 -/

/-- C7: `GetSizeRange` returns exactly the labels whose stored voxel count
lies in the inclusive range [minSize, maxSize] (`maxSize = 0` meaning
unbounded above), in store order, so the result of an empty range is the
empty list; and the matched keys stay ascending by (count, label) whenever
the store is sorted. -/
theorem C7_size_range (store : List (Nat × Nat)) (minSize maxSize : Nat)
    (hsorted : store.Pairwise (fun a b => keyLE a b = true))
    (hbound : ∀ k ∈ store, k.1 ≤ MaxUint64 ∧ k.2 ≤ MaxUint64) :
    getSizeRange store minSize maxSize =
      (store.filter (fun k =>
          decide (minSize ≤ k.1 ∧ (maxSize = 0 ∨ k.1 ≤ maxSize)))).map Prod.snd ∧
    (store.filter (fun k =>
        decide (minSize ≤ k.1 ∧ (maxSize = 0 ∨ k.1 ≤ maxSize)))).Pairwise
      (fun a b => keyLE a b = true) := by
  constructor
  · simp only [getSizeRange, KeysInRange, NewLabelSizesIndex]
    congr 1
    apply List.filter_congr
    intro k hk
    obtain ⟨hk1, hk2⟩ := hbound k hk
    have hM : MaxUint64 = 18446744073709551615 := by norm_num [MaxUint64]
    rw [hM] at hk1 hk2
    rw [Bool.eq_iff_iff]
    by_cases hmax : maxSize = 0
    · subst hmax
      simp [Bool.and_eq_true, keyLE, decide_eq_true_eq, hM]
      omega
    · have hb : (maxSize != 0) = true := by
        simp only [bne_iff_ne, ne_eq]
        exact hmax
      simp [hb, Bool.and_eq_true, keyLE, decide_eq_true_eq, hM, hmax]
      omega
  · exact hsorted.filter _

/-- C7 witness: for stored sizes (3, L2), (5, L1), (9, L3) with labels
L1 = 1, L2 = 2, L3 = 3, the query [4, 10] returns [L1, L3] ascending by
size. -/
theorem C7_witness : getSizeRange [(3, 2), (5, 1), (9, 3)] 4 10 = [1, 3] := by
  have h := (C7_size_range [(3, 2), (5, 1), (9, 3)] 4 10 (by decide)
      (by decide)).1
  rw [h]
  decide

/-! ### Claim C8 -/

/-- C8: a surface lookup for a label with no stored blob returns the explicit
not-found result — empty bytes, found flag false — with no error, and
`GetSurface` returns an error only when the store role is unavailable, the
store read fails, or the stored bytes fail to deserialize. -/
theorem C8_not_found_no_error (env : SurfaceStoreEnv) (label : Nat) :
    (env.bigDataAvailable = true → env.getResult label = some none →
      getSurface env label = Except.ok ([], false)) ∧
    (∀ e, getSurface env label = Except.error e →
      env.bigDataAvailable = false ∨ env.getResult label = none ∨
        ∃ d, env.getResult label = some (some d) ∧ env.deserialize d = none) := by
  constructor
  · intro hb hres
    simp [getSurface, hb, hres]
  · intro e he
    by_cases hb : env.bigDataAvailable
    · cases hres : env.getResult label with
      | none => exact Or.inr (Or.inl rfl)
      | some o =>
        cases o with
        | none => simp [getSurface, hb, hres] at he
        | some d =>
          cases hd : env.deserialize d with
          | none => exact Or.inr (Or.inr ⟨d, rfl, hd⟩)
          | some sb => simp [getSurface, hb, hres, hd] at he
    · exact Or.inl (by simpa using hb)

/-- C8 witness: in a store where every label is missing, the lookup for
label 7 returns the not-found result with no error. -/
theorem C8_witness : getSurface envMissing 7 = Except.ok ([], false) :=
  (C8_not_found_no_error envMissing 7).1 rfl rfl

/-! ### Claim C9 -/

/-- C9: `ComputeSurface` releases exactly one permit to the handler-admission
pool and signals the completion wait group exactly once on every exit path
— normal sentinel completion, an `AddRLEs` decode error, and a surface
computation/store error alike — for every stream and every finalize-oracle
behavior, since both effects are deferred. -/
theorem C9_defer_exactly_once (oracle : Nat → Bool) (chunks : List Chunk) :
    (computeSurface oracle chunks).handlerTokensReleased = 1 ∧
    (computeSurface oracle chunks).wgDone = 1 :=
  ⟨rfl, rfl⟩

/-! ### Claim C10 -/

/-- C10: if `ComputeSizes` receives a chunk whose RLE bytes fail to decode,
it returns immediately: the suffix of the stream and the sentinel are never
processed, the final state is exactly the pre-chunk state — so no
size-index entry is written for the label being accumulated — and the open
batch's buffered entries stay uncommitted and are discarded with the
run (`committed` is unchanged from the last successful commit). -/
theorem C10_decode_error_discards (oracle : Nat → Bool) (pre : List Chunk)
    (c : Chunk) (suf : List Chunk) (s1 : SizesState)
    (hpre : sizesLoop oracle pre {} = Sum.inr s1)
    (hdec : decodeRLEs c.v = none) :
    computeSizes oracle (pre ++ c :: suf) = (s1, SizesOutcome.decodeError) := by
  have hloop : sizesLoop oracle (pre ++ c :: suf) {} =
      Sum.inl (s1, SizesOutcome.decodeError) := by
    rw [sizesLoop_append, hpre]
    show sizesLoop oracle (c :: suf) s1 = _
    simp only [sizesLoop]
    rw [show sizesProcessChunk oracle c s1 =
          Sum.inl (s1, SizesOutcome.decodeError) from by
        unfold sizesProcessChunk
        rw [hdec]]
  unfold computeSizes
  rw [hloop]

/-- C10 witness: a three-chunk stream whose second chunk carries a 1-byte
(undecodable) RLE value aborts right there, keeping only the first chunk's
accumulation state with nothing committed and the label-2 suffix
unprocessed. -/
theorem C10_witness :
    computeSizes (fun _ => true) ([mkChunk 1] ++ (⟨2, [0]⟩ : Chunk) :: [mkChunk 3]) =
      ({ curLabel := 1, curSize := 1, notFirst := true }, SizesOutcome.decodeError) :=
  C10_decode_error_discards (fun _ => true) [mkChunk 1] ⟨2, [0]⟩ [mkChunk 3]
    { curLabel := 1, curSize := 1, notFirst := true } (by decide) (by decide)

end DVID
